import Mathlib

/-!
Verification of the redaction core of `zap-logger-filter` (`sensitive.go`).

The development shallowly embeds:
  * the sensitive-field filter (`NewSensitiveDataFilter`, `IsSensitiveField`),
  * the recursive value masker (`MaskSensitiveData`, `maskSliceData`),
  * the deferred JSON marshaler (`SensitiveDataMarshaler.MarshalJSON`),
  * the wrapping encoder (`SensitiveDataEncoder.EncodeEntry`).

Go dynamic values (`interface{}`) are modelled by the inductive `GoValue`;
Go `map[string]interface{}` by `Option Entries` (`none` = nil map) and
`[]interface{}` by `Option Elems` (`none` = nil slice).  `strings.ToLower`
is modelled character-wise by `goToLower` (ASCII case folding, matching the
behaviour relevant to the repository's field names).  JSON serialization
(`encoding/json`) is modelled by `jsonMarshalV`; the marshal-then-unmarshal
round trip of the default branch of `MarshalJSON` is modelled semantically
by `canonV`, the canonical (struct-free) form denoted by the marshalled
text, validated by the lemma `jsonMarshalV_canonV`.
-/

/-- ASCII lower-casing of one character, as `strings.ToLower` acts on the
ASCII range: `A`..`Z` map to `a`..`z`, everything else is unchanged. -/
def goCharToLower (c : Char) : Char :=
  if 65 ≤ c.toNat ∧ c.toNat ≤ 90 then Char.ofNat (c.toNat + 32) else c

/-- Model of `strings.ToLower`: lower-case every character of the string. -/
def goToLower (s : String) : String :=
  ⟨s.data.map goCharToLower⟩

/-- The process-wide mask token, Go `var Mask = "***"`. -/
def MaskToken : String := "***"

/-- `SensitiveDataFilter`: the set of configured sensitive field names.  The
Go `map[string]bool` is modelled by the list of names stored with value
`true`; membership is what matters, duplicates are harmless. -/
structure SensitiveDataFilter where
  sensitiveFields : List String

/-- `NewSensitiveDataFilter`: store every configured field name lower-cased. -/
def NewSensitiveDataFilter (fields : List String) : SensitiveDataFilter :=
  ⟨fields.map goToLower⟩

/-- `IsSensitiveField`: the empty name is never sensitive; otherwise
lower-case the probe and look it up. -/
def IsSensitiveField (f : SensitiveDataFilter) (fieldName : String) : Bool :=
  if fieldName = "" then false
  else f.sensitiveFields.contains (goToLower fieldName)

mutual
/-- A Go `interface{}` value as seen by the masking code: strings and numbers
(scalars kept by the type switch's default case), maps (`obj`, `none` = nil
map), slices (`arr`, `none` = nil slice), application-defined struct values
(`structV`, which the type switch does not open but `encoding/json`
serializes as an object), and values `encoding/json` cannot serialize at all
(`unserializable`, e.g. a channel). -/
inductive GoValue where
  | str : String → GoValue
  | num : Int → GoValue
  | obj : Option Entries → GoValue
  | arr : Option Elems → GoValue
  | structV : Entries → GoValue
  | unserializable : GoValue

/-- The entry sequence of a Go `map[string]interface{}`. -/
inductive Entries where
  | enil : Entries
  | econs : String → GoValue → Entries → Entries

/-- The element sequence of a Go `[]interface{}`. -/
inductive Elems where
  | vnil : Elems
  | vcons : GoValue → Elems → Elems
end

/-- The keys of an entry sequence, in order. -/
def Entries.keys : Entries → List String
  | .enil => []
  | .econs k _ rest => k :: Entries.keys rest

/-- Positional lookup in an entry sequence. -/
def Entries.get? : Entries → Nat → Option (String × GoValue)
  | .enil, _ => none
  | .econs k v _, 0 => some (k, v)
  | .econs _ _ rest, n + 1 => Entries.get? rest n

/-- Length of an element sequence. -/
def Elems.length : Elems → Nat
  | .vnil => 0
  | .vcons _ rest => Elems.length rest + 1

/-- Positional lookup in an element sequence. -/
def Elems.get? : Elems → Nat → Option GoValue
  | .vnil, _ => none
  | .vcons v _, 0 => some v
  | .vcons _ rest, n + 1 => Elems.get? rest n

mutual
/-- The type switch shared by `MaskSensitiveData` and `maskSliceData`:
maps recurse through `MaskSensitiveData` (nil maps stay nil), slices through
`maskSliceData` (nil slices stay nil), and every other value is kept as-is
("保留原始值，不检查内容"). -/
def maskValue (flt : SensitiveDataFilter) (mask : String) : GoValue → GoValue
  | .str s => .str s
  | .num n => .num n
  | .obj none => .obj none
  | .obj (some l) => .obj (some (maskEntries flt mask l))
  | .arr none => .arr none
  | .arr (some l) => .arr (some (maskElems flt mask l))
  | .structV l => .structV l
  | .unserializable => .unserializable

/-- The loop body of `MaskSensitiveData`: a key whose lower-cased form is
sensitive gets the mask token as its whole value; otherwise the value is
processed by the type switch. -/
def maskEntries (flt : SensitiveDataFilter) (mask : String) : Entries → Entries
  | .enil => .enil
  | .econs k v rest =>
    if IsSensitiveField flt (goToLower k)
    then .econs k (.str mask) (maskEntries flt mask rest)
    else .econs k (maskValue flt mask v) (maskEntries flt mask rest)

/-- The loop body of `maskSliceData`: every element goes through the type
switch; elements themselves are never masked by name. -/
def maskElems (flt : SensitiveDataFilter) (mask : String) : Elems → Elems
  | .vnil => .vnil
  | .vcons v rest => .vcons (maskValue flt mask v) (maskElems flt mask rest)
end

/-- `MaskSensitiveData`: nil input returns nil, otherwise mask every entry. -/
def MaskSensitiveData (flt : SensitiveDataFilter) (mask : String) :
    Option Entries → Option Entries
  | none => none
  | some l => some (maskEntries flt mask l)

/-- `maskSliceData`: nil input returns nil, otherwise mask every element. -/
def maskSliceData (flt : SensitiveDataFilter) (mask : String) :
    Option Elems → Option Elems
  | none => none
  | some l => some (maskElems flt mask l)

theorem maskValue_obj (flt : SensitiveDataFilter) (mask : String)
    (m : Option Entries) :
    maskValue flt mask (.obj m) = .obj (MaskSensitiveData flt mask m) := by
  cases m <;> rfl

theorem maskValue_arr (flt : SensitiveDataFilter) (mask : String)
    (a : Option Elems) :
    maskValue flt mask (.arr a) = .arr (maskSliceData flt mask a) := by
  cases a <;> rfl

/-- JSON string quoting (escaping of special characters is not needed by any
claim and is left as plain quoting). -/
def jsonQuote (s : String) : String :=
  "\"" ++ s ++ "\""

mutual
/-- Model of `json.Marshal` on a Go value: nil maps and nil slices serialize
to `null`, maps and structs to objects, slices to arrays, and an
unserializable value (e.g. a channel) yields an error, which propagates
bottom-up exactly as `encoding/json` propagates it. -/
def jsonMarshalV : GoValue → Except String String
  | .str s => .ok (jsonQuote s)
  | .num n => .ok (toString n)
  | .obj none => .ok "null"
  | .obj (some l) => Except.map (fun body => "\x7b" ++ body ++ "\x7d") (jsonMarshalEntries l)
  | .arr none => .ok "null"
  | .arr (some l) => Except.map (fun body => "[" ++ body ++ "]") (jsonMarshalElems l)
  | .structV l => Except.map (fun body => "\x7b" ++ body ++ "\x7d") (jsonMarshalEntries l)
  | .unserializable => .error "json: unsupported type"

/-- Serialize the entries of an object body, comma-separated. -/
def jsonMarshalEntries : Entries → Except String String
  | .enil => .ok ""
  | .econs k v .enil =>
    Except.map (fun sv => jsonQuote k ++ ":" ++ sv) (jsonMarshalV v)
  | .econs k v rest => do
    let sv ← jsonMarshalV v
    let srest ← jsonMarshalEntries rest
    return jsonQuote k ++ ":" ++ sv ++ "," ++ srest

/-- Serialize the elements of an array body, comma-separated. -/
def jsonMarshalElems : Elems → Except String String
  | .vnil => .ok ""
  | .vcons v .vnil => jsonMarshalV v
  | .vcons v rest => do
    let sv ← jsonMarshalV v
    let srest ← jsonMarshalElems rest
    return sv ++ "," ++ srest
end

mutual
/-- The canonical form a value takes after the marshal → unmarshal round
trip of `MarshalJSON`'s default branch: struct values become plain objects,
recursively.  `canonV v` denotes the same JSON text as `v`
(`jsonMarshalV_canonV`). -/
def canonV : GoValue → GoValue
  | .str s => .str s
  | .num n => .num n
  | .obj none => .obj none
  | .obj (some l) => .obj (some (canonEntries l))
  | .arr none => .arr none
  | .arr (some l) => .arr (some (canonElems l))
  | .structV l => .obj (some (canonEntries l))
  | .unserializable => .unserializable

/-- Canonicalize every value of an entry sequence. -/
def canonEntries : Entries → Entries
  | .enil => .enil
  | .econs k v rest => .econs k (canonV v) (canonEntries rest)

/-- Canonicalize every value of an element sequence. -/
def canonElems : Elems → Elems
  | .vnil => .vnil
  | .vcons v rest => .vcons (canonV v) (canonElems rest)
end

/-- Model of `json.Unmarshal(jsonData, &dataMap)` in the default branch of
`MarshalJSON`: it succeeds exactly when the marshalled text of `d` denotes an
object (possibly `null`), and the parsed map is the canonical form. -/
def unmarshalAsMap (d : GoValue) : Option (Option Entries) :=
  match canonV d with
  | .obj m => some m
  | _ => none

/-- Model of `json.Unmarshal(jsonData, &dataArray)` in the default branch of
`MarshalJSON`: it succeeds exactly when the marshalled text of `d` denotes an
array (possibly `null`). -/
def unmarshalAsArr (d : GoValue) : Option (Option Elems) :=
  match canonV d with
  | .arr a => some a
  | _ => none

/-- `SensitiveDataMarshaler.MarshalJSON`: with a nil filter, plain
serialization.  Maps and slices are masked directly and re-serialized.  Any
other value is serialized, then re-parsed as a map, then as an array, the
parsed form is masked and re-serialized; if it parses as neither (a scalar),
the already-produced bytes are returned. -/
def MarshalJSON (filter : Option SensitiveDataFilter) (mask : String)
    (data : GoValue) : Except String String :=
  match filter with
  | none => jsonMarshalV data
  | some flt =>
    match data with
    | .obj m => jsonMarshalV (.obj (MaskSensitiveData flt mask m))
    | .arr a => jsonMarshalV (.arr (maskSliceData flt mask a))
    | d =>
      match jsonMarshalV d with
      | .error e => .error ("failed to marshal data: " ++ e)
      | .ok jsonData =>
        match unmarshalAsMap d with
        | some dataMap =>
          match jsonMarshalV (.obj (MaskSensitiveData flt mask dataMap)) with
          | .ok r => .ok r
          | .error e => .error ("failed to marshal masked data: " ++ e)
        | none =>
          match unmarshalAsArr d with
          | some dataArr =>
            match jsonMarshalV (.arr (maskSliceData flt mask dataArr)) with
            | .ok r => .ok r
            | .error e => .error ("failed to marshal masked array: " ++ e)
          | none => .ok jsonData

/-- The `zapcore.FieldType` values the code inspects: `StringType` (produced
by `zap.String`), `ReflectType` and `ObjectMarshalerType` (the two
"complex" classifications), and everything else collapsed into `other`. -/
inductive FieldType where
  | stringType : FieldType
  | reflectType : FieldType
  | objectMarshalerType : FieldType
  | other : Nat → FieldType
deriving DecidableEq

/-- The `Interface` slot of a `zapcore.Field`: nil, a plain Go value, or a
`*SensitiveDataMarshaler` wrapping the slot it was built from together with
the encoder's filter (the Deferred Complex-Value Wrapper). -/
inductive IfaceSlot where
  | nilIface : IfaceSlot
  | val : GoValue → IfaceSlot
  | wrapper : IfaceSlot → SensitiveDataFilter → IfaceSlot

/-- Is the `Interface` slot nil (`field.Interface != nil` in Go)? -/
def IfaceSlot.isNil : IfaceSlot → Bool
  | .nilIface => true
  | _ => false

/-- Does the slot hold a `*SensitiveDataMarshaler`? -/
def IfaceSlot.isWrapper : IfaceSlot → Bool
  | .wrapper _ _ => true
  | _ => false

/-- A `zapcore.Field`, restricted to the slots the code reads or writes:
key, type tag, the string payload and the interface payload. -/
structure ZapField where
  key : String
  type : FieldType
  stringVal : String
  interface : IfaceSlot

/-- `zap.String(key, s)`: a string-typed field with an empty interface slot. -/
def zapString (key s : String) : ZapField :=
  ⟨key, .stringType, s, .nilIface⟩

/-- `zap.Any(key, marshaler)` on a `*SensitiveDataMarshaler`: zap classifies
an arbitrary unrecognized value through `zap.Reflect`, giving a
reflect-typed field whose interface slot holds the marshaler. -/
def zapAnyWrapper (key : String) (data : IfaceSlot) (flt : SensitiveDataFilter) : ZapField :=
  ⟨key, .reflectType, "", .wrapper data flt⟩

/-- The per-field body of `EncodeEntry`'s loop: a sensitive name is replaced
by `zap.String(key, Mask)`; otherwise a reflect- or object-marshaler-typed
field with a non-nil interface is wrapped in a `SensitiveDataMarshaler`;
every other field is forwarded unchanged. -/
def filterField (flt : SensitiveDataFilter) (mask : String) (field : ZapField) : ZapField :=
  if IsSensitiveField flt (goToLower field.key) then
    zapString field.key mask
  else if (field.type = .reflectType ∨ field.type = .objectMarshalerType)
      ∧ field.interface.isNil = false then
    zapAnyWrapper field.key field.interface flt
  else
    field

/-- `SensitiveDataEncoder`: the wrapped underlying encoder is abstract; the
model keeps only the (possibly nil) filter. -/
structure SensitiveDataEncoder where
  filter : Option SensitiveDataFilter

/-- `SensitiveDataEncoder.EncodeEntry`, modelled as the field sequence handed
to the underlying encoder: with a nil filter or an empty field list the
input is forwarded as-is, otherwise every field goes through the
replacement loop. -/
def EncodeEntry (e : SensitiveDataEncoder) (mask : String)
    (fields : List ZapField) : List ZapField :=
  match e.filter with
  | none => fields
  | some flt =>
    if fields.length = 0 then fields
    else fields.map (filterField flt mask)

mutual
theorem maskValue_idem (flt : SensitiveDataFilter) (mask : String) :
    ∀ v : GoValue, maskValue flt mask (maskValue flt mask v) = maskValue flt mask v
  | .str _ => rfl
  | .num _ => rfl
  | .obj none => rfl
  | .obj (some l) =>
    congrArg (fun x => GoValue.obj (some x)) (maskEntries_idem flt mask l)
  | .arr none => rfl
  | .arr (some l) =>
    congrArg (fun x => GoValue.arr (some x)) (maskElems_idem flt mask l)
  | .structV _ => rfl
  | .unserializable => rfl

theorem maskEntries_idem (flt : SensitiveDataFilter) (mask : String) :
    ∀ l : Entries, maskEntries flt mask (maskEntries flt mask l) = maskEntries flt mask l
  | .enil => rfl
  | .econs k v rest => by
    by_cases h : IsSensitiveField flt (goToLower k) = true
    · simp [maskEntries, h, maskEntries_idem flt mask rest]
    · simp [maskEntries, h, maskEntries_idem flt mask rest, maskValue_idem flt mask v]

theorem maskElems_idem (flt : SensitiveDataFilter) (mask : String) :
    ∀ l : Elems, maskElems flt mask (maskElems flt mask l) = maskElems flt mask l
  | .vnil => rfl
  | .vcons v rest => by
    simp [maskElems, maskValue_idem flt mask v, maskElems_idem flt mask rest]
end

mutual
/-- No key of this value, at any nesting depth reachable through maps,
slices or struct values, matches the sensitive field set. -/
def valueClean (flt : SensitiveDataFilter) : GoValue → Bool
  | .str _ => true
  | .num _ => true
  | .obj none => true
  | .obj (some l) => entriesClean flt l
  | .arr none => true
  | .arr (some l) => elemsClean flt l
  | .structV l => entriesClean flt l
  | .unserializable => true

/-- No key of these entries, nor of any nested value, is sensitive. -/
def entriesClean (flt : SensitiveDataFilter) : Entries → Bool
  | .enil => true
  | .econs k v rest =>
    !IsSensitiveField flt (goToLower k) && valueClean flt v && entriesClean flt rest

/-- No key nested inside any of these elements is sensitive. -/
def elemsClean (flt : SensitiveDataFilter) : Elems → Bool
  | .vnil => true
  | .vcons v rest => valueClean flt v && elemsClean flt rest
end

mutual
theorem maskValue_of_clean (flt : SensitiveDataFilter) (mask : String) :
    ∀ v : GoValue, valueClean flt v = true → maskValue flt mask v = v
  | .str _, _ => rfl
  | .num _, _ => rfl
  | .obj none, _ => rfl
  | .obj (some l), h =>
    congrArg (fun x => GoValue.obj (some x)) (maskEntries_of_clean flt mask l h)
  | .arr none, _ => rfl
  | .arr (some l), h =>
    congrArg (fun x => GoValue.arr (some x)) (maskElems_of_clean flt mask l h)
  | .structV _, _ => rfl
  | .unserializable, _ => rfl

theorem maskEntries_of_clean (flt : SensitiveDataFilter) (mask : String) :
    ∀ l : Entries, entriesClean flt l = true → maskEntries flt mask l = l
  | .enil, _ => rfl
  | .econs k v rest, h => by
    simp only [entriesClean, Bool.and_eq_true, Bool.not_eq_true'] at h
    simp [maskEntries, h.1.1, maskValue_of_clean flt mask v h.1.2,
      maskEntries_of_clean flt mask rest h.2]

theorem maskElems_of_clean (flt : SensitiveDataFilter) (mask : String) :
    ∀ l : Elems, elemsClean flt l = true → maskElems flt mask l = l
  | .vnil, _ => rfl
  | .vcons v rest, h => by
    simp only [elemsClean, Bool.and_eq_true] at h
    simp [maskElems, maskValue_of_clean flt mask v h.1,
      maskElems_of_clean flt mask rest h.2]
end

mutual
theorem jsonMarshalV_canonV :
    ∀ v : GoValue, jsonMarshalV (canonV v) = jsonMarshalV v
  | .str _ => rfl
  | .num _ => rfl
  | .obj none => rfl
  | .obj (some l) => by
    simp [canonV, jsonMarshalV, jsonMarshalEntries_canonEntries l]
  | .arr none => rfl
  | .arr (some l) => by
    simp [canonV, jsonMarshalV, jsonMarshalElems_canonElems l]
  | .structV l => by
    simp [canonV, jsonMarshalV, jsonMarshalEntries_canonEntries l]
  | .unserializable => rfl

theorem jsonMarshalEntries_canonEntries :
    ∀ l : Entries, jsonMarshalEntries (canonEntries l) = jsonMarshalEntries l
  | .enil => rfl
  | .econs k v .enil => by
    simp [canonEntries, jsonMarshalEntries, jsonMarshalV_canonV v]
  | .econs k v (.econs k2 v2 r2) => by
    have h := jsonMarshalEntries_canonEntries (Entries.econs k2 v2 r2)
    simp only [canonEntries] at h
    simp [canonEntries, jsonMarshalEntries, jsonMarshalV_canonV v, h]

theorem jsonMarshalElems_canonElems :
    ∀ l : Elems, jsonMarshalElems (canonElems l) = jsonMarshalElems l
  | .vnil => rfl
  | .vcons v .vnil => by
    simp [canonElems, jsonMarshalElems, jsonMarshalV_canonV v]
  | .vcons v (.vcons v2 r2) => by
    have h := jsonMarshalElems_canonElems (Elems.vcons v2 r2)
    simp only [canonElems] at h
    simp [canonElems, jsonMarshalElems, jsonMarshalV_canonV v, h]
end

theorem maskEntries_keys (flt : SensitiveDataFilter) (mask : String) :
    ∀ l : Entries, (maskEntries flt mask l).keys = l.keys
  | .enil => rfl
  | .econs k v rest => by
    by_cases h : IsSensitiveField flt (goToLower k) = true
    · simp [maskEntries, h, Entries.keys, maskEntries_keys flt mask rest]
    · simp [maskEntries, h, Entries.keys, maskEntries_keys flt mask rest]

theorem maskElems_length (flt : SensitiveDataFilter) (mask : String) :
    ∀ l : Elems, (maskElems flt mask l).length = l.length
  | .vnil => rfl
  | .vcons v rest => by
    simp [maskElems, Elems.length, maskElems_length flt mask rest]

theorem maskEntries_get? (flt : SensitiveDataFilter) (mask : String) :
    ∀ (l : Entries) (i : Nat),
      Entries.get? (maskEntries flt mask l) i =
        Option.map
          (fun kv => if IsSensitiveField flt (goToLower kv.1)
            then (kv.1, GoValue.str mask)
            else (kv.1, maskValue flt mask kv.2))
          (Entries.get? l i)
  | .enil, _ => rfl
  | .econs k v rest, 0 => by
    by_cases h : IsSensitiveField flt (goToLower k) = true
    · simp [maskEntries, h, Entries.get?]
    · simp [maskEntries, h, Entries.get?]
  | .econs k v rest, n + 1 => by
    by_cases h : IsSensitiveField flt (goToLower k) = true
    · simp [maskEntries, h, Entries.get?, maskEntries_get? flt mask rest n]
    · simp [maskEntries, h, Entries.get?, maskEntries_get? flt mask rest n]

theorem maskElems_get? (flt : SensitiveDataFilter) (mask : String) :
    ∀ (l : Elems) (i : Nat),
      Elems.get? (maskElems flt mask l) i =
        Option.map (maskValue flt mask) (Elems.get? l i)
  | .vnil, _ => rfl
  | .vcons v rest, 0 => by simp [maskElems, Elems.get?]
  | .vcons v rest, n + 1 => by
    simp [maskElems, Elems.get?, maskElems_get? flt mask rest n]

theorem filterField_key (flt : SensitiveDataFilter) (mask : String)
    (field : ZapField) : (filterField flt mask field).key = field.key := by
  unfold filterField
  by_cases h : IsSensitiveField flt (goToLower field.key) = true
  · simp [h, zapString]
  · simp [h]
    by_cases h2 : (field.type = .reflectType ∨ field.type = .objectMarshalerType)
        ∧ field.interface.isNil = false
    · simp [h2, zapAnyWrapper]
    · simp [h2]

theorem EncodeEntry_keys (e : SensitiveDataEncoder) (mask : String)
    (fields : List ZapField) :
    (EncodeEntry e mask fields).map ZapField.key = fields.map ZapField.key := by
  unfold EncodeEntry
  cases e.filter with
  | none => rfl
  | some flt =>
    by_cases h : fields.length = 0
    · simp [h]
    · simp [h, filterField_key]

theorem EncodeEntry_length (e : SensitiveDataEncoder) (mask : String)
    (fields : List ZapField) :
    (EncodeEntry e mask fields).length = fields.length := by
  have h := congrArg List.length (EncodeEntry_keys e mask fields)
  simpa using h

/-- Is a whole map (possibly nil) free of sensitive keys at every depth? -/
def mapClean (flt : SensitiveDataFilter) : Option Entries → Bool
  | none => true
  | some l => entriesClean flt l

/-- C4: membership in the sensitive field set is case-insensitive: lookup
lower-cases the probe and construction lower-cases the stored names, so any
two case variants of a field name (names with the same lower-cased form)
give the same `IsSensitiveField` answer. -/
theorem claim_C4 (fields : List String) (f g : String)
    (h : goToLower f = goToLower g) :
    IsSensitiveField (NewSensitiveDataFilter fields) f
      = IsSensitiveField (NewSensitiveDataFilter fields) g := by
  have hdata : f.data.map goCharToLower = g.data.map goCharToLower := by
    simpa [goToLower] using congrArg String.data h
  have hlen : f.data.length = g.data.length := by
    simpa using congrArg List.length hdata
  have hempty : f = "" ↔ g = "" := by
    constructor
    · intro hx
      have : g.data = [] := by
        have : f.data = [] := by simp [hx]
        have := hlen
        simp [‹f.data = []›] at this
        exact List.length_eq_zero.mp this.symm
      cases g with
      | mk d =>
        have hd : d = [] := by simpa using this
        subst hd
        rfl
    · intro hx
      have : f.data = [] := by
        have : g.data = [] := by simp [hx]
        have := hlen
        simp [‹g.data = []›] at this
        exact List.length_eq_zero.mp this
      cases f with
      | mk d =>
        have hd : d = [] := by simpa using this
        subst hd
        rfl
  unfold IsSensitiveField
  by_cases hf : f = ""
  · simp [hf, hempty.mp hf]
  · have hg : ¬ g = "" := fun hx => hf (hempty.mpr hx)
    simp [hf, hg, h]

/-- Witness for `claim_C4` at a concrete case variant. -/
theorem claim_C4_witness :
    IsSensitiveField (NewSensitiveDataFilter ["Password"]) "PASSWORD"
      = IsSensitiveField (NewSensitiveDataFilter ["Password"]) "password" :=
  claim_C4 ["Password"] "PASSWORD" "password" rfl

/-- C3: a key whose lower-cased form matches the sensitive field set has its
entire value — of whatever shape and depth — replaced by the scalar mask
token; in particular an Object value becomes the scalar token, with no
recursion into it. -/
theorem claim_C3 (flt : SensitiveDataFilter) (mask : String) (l : Entries)
    (i : Nat) (k : String) (v : GoValue)
    (hget : Entries.get? l i = some (k, v))
    (hsens : IsSensitiveField flt (goToLower k) = true) :
    Option.bind (MaskSensitiveData flt mask (some l))
        (fun l2 => Entries.get? l2 i)
      = some (k, GoValue.str mask) := by
  simp [MaskSensitiveData, maskEntries_get? flt mask l i, hget, hsens]

/-- Witness for `claim_C3`: a sensitive key holding a nested Object is
replaced by the scalar token. -/
theorem claim_C3_witness :
    Option.bind
        (MaskSensitiveData (NewSensitiveDataFilter ["password"]) "***"
          (some (.econs "password"
            (.obj (some (.econs "a" (.num 1) .enil))) .enil)))
        (fun l2 => Entries.get? l2 0)
      = some ("password", GoValue.str "***") :=
  claim_C3 (NewSensitiveDataFilter ["password"]) "***"
    (.econs "password" (.obj (some (.econs "a" (.num 1) .enil))) .enil)
    0 "password" (.obj (some (.econs "a" (.num 1) .enil))) rfl rfl

/-- C5: masking is idempotent for a fixed filter and mask token. -/
theorem claim_C5 (flt : SensitiveDataFilter) (mask : String)
    (o : Option Entries) :
    MaskSensitiveData flt mask (MaskSensitiveData flt mask o)
      = MaskSensitiveData flt mask o := by
  cases o with
  | none => rfl
  | some l => simp [MaskSensitiveData, maskEntries_idem]

/-- C6: an Object with no sensitive key at any nesting depth is returned
structurally unchanged by masking. -/
theorem claim_C6 (flt : SensitiveDataFilter) (mask : String)
    (o : Option Entries) (h : mapClean flt o = true) :
    MaskSensitiveData flt mask o = o := by
  cases o with
  | none => rfl
  | some l =>
    simp only [mapClean] at h
    simp [MaskSensitiveData, maskEntries_of_clean flt mask l h]

/-- Witness for `claim_C6` on a concrete sensitive-key-free Object. -/
theorem claim_C6_witness :
    MaskSensitiveData (NewSensitiveDataFilter ["password"]) "***"
        (some (.econs "name" (.str "John")
          (.econs "tags" (.arr (some (.vcons (.num 1) .vnil))) .enil)))
      = some (.econs "name" (.str "John")
          (.econs "tags" (.arr (some (.vcons (.num 1) .vnil))) .enil)) :=
  claim_C6 (NewSensitiveDataFilter ["password"]) "***"
    (some (.econs "name" (.str "John")
      (.econs "tags" (.arr (some (.vcons (.num 1) .vnil))) .enil))) rfl

/-- C7: masking and encoding are value-substitution only: masking keeps an
Object's key sequence exactly, keeps an Array's length, maps Array elements
positionally, and `EncodeEntry` hands the underlying encoder a field list of
the same length with the same names in the same order. -/
theorem claim_C7 (mask : String) :
    (∀ (flt : SensitiveDataFilter) (o : Option Entries),
      Option.map Entries.keys (MaskSensitiveData flt mask o)
        = Option.map Entries.keys o) ∧
    (∀ (flt : SensitiveDataFilter) (a : Option Elems),
      Option.map Elems.length (maskSliceData flt mask a)
        = Option.map Elems.length a) ∧
    (∀ (flt : SensitiveDataFilter) (a : Elems) (i : Nat),
      Elems.get? (maskElems flt mask a) i
        = Option.map (maskValue flt mask) (Elems.get? a i)) ∧
    (∀ (e : SensitiveDataEncoder) (fields : List ZapField),
      (EncodeEntry e mask fields).length = fields.length ∧
      (EncodeEntry e mask fields).map ZapField.key
        = fields.map ZapField.key) := by
  refine ⟨?_, ?_, ?_, ?_⟩
  · intro flt o
    cases o with
    | none => rfl
    | some l => simp [MaskSensitiveData, maskEntries_keys]
  · intro flt a
    cases a with
    | none => rfl
    | some l => simp [maskSliceData, maskElems_length]
  · intro flt a i
    exact maskElems_get? flt mask a i
  · intro e fields
    exact ⟨EncodeEntry_length e mask fields, EncodeEntry_keys e mask fields⟩

/-- C8: masking a slice keeps its length and masks every element in place,
recursively, never by the element's own (nonexistent) name; on the concrete
example, both objects in the array get their `password` masked. -/
theorem claim_C8 :
    (∀ (flt : SensitiveDataFilter) (mask : String) (l : Elems),
      maskSliceData flt mask (some l) = some (maskElems flt mask l) ∧
      (maskElems flt mask l).length = l.length ∧
      (∀ i : Nat, Elems.get? (maskElems flt mask l) i
        = Option.map (maskValue flt mask) (Elems.get? l i))) ∧
    maskSliceData (NewSensitiveDataFilter ["password"]) "***"
        (some (.vcons (.obj (some (.econs "password" (.str "p1") .enil)))
          (.vcons (.obj (some (.econs "password" (.str "p2") .enil))) .vnil)))
      = some (.vcons (.obj (some (.econs "password" (.str "***") .enil)))
          (.vcons (.obj (some (.econs "password" (.str "***") .enil))) .vnil)) := by
  refine ⟨?_, rfl⟩
  intro flt mask l
  exact ⟨rfl, maskElems_length flt mask l, maskElems_get? flt mask l⟩

/-- C9: nil maps and nil slices mask to nil, the empty map masks to the
empty map, and the recursion itself keeps a nested nil map or nil slice nil
rather than coercing it to empty. -/
theorem claim_C9 (flt : SensitiveDataFilter) (mask : String) :
    MaskSensitiveData flt mask none = none ∧
    maskSliceData flt mask none = none ∧
    MaskSensitiveData flt mask (some .enil) = some .enil ∧
    maskValue flt mask (.obj none) = .obj none ∧
    maskValue flt mask (.arr none) = .arr none :=
  ⟨rfl, rfl, rfl, rfl, rfl⟩

/-- C1 counterexample: a reflect-typed (complex) field whose own name
`password` matches the sensitive field set is replaced by the scalar
mask-token field produced by `zap.String`, which carries no Deferred
Complex-Value Wrapper — refuting "replaced with a field holding a Deferred
Complex-Value Wrapper regardless of whether the field's own name matches". -/
theorem claim_C1_counterexample :
    EncodeEntry ⟨some (NewSensitiveDataFilter ["password"])⟩ "***"
        [⟨"password", .reflectType, "",
          .val (.obj (some (.econs "a" (.num 1) .enil)))⟩]
      = [zapString "password" "***"] ∧
    (zapString "password" "***").interface.isWrapper = false :=
  ⟨rfl, rfl⟩

/-- C1 (amended): a complex-typed field (reflect- or object-marshaler-typed)
with a non-nil payload is replaced by a field holding the Deferred
Complex-Value Wrapper around the original payload only when its own name
does not match the sensitive field set; when the name matches, the field is
replaced by the scalar mask-token field instead. -/
theorem claim_C1 (flt : SensitiveDataFilter) (mask : String)
    (fields : List ZapField) (i : Nat) (f : ZapField)
    (hf : fields.get? i = some f)
    (hcomplex : f.type = .reflectType ∨ f.type = .objectMarshalerType)
    (hnn : f.interface.isNil = false) :
    (EncodeEntry ⟨some flt⟩ mask fields).get? i =
      some (if IsSensitiveField flt (goToLower f.key)
        then zapString f.key mask
        else zapAnyWrapper f.key f.interface flt) := by
  have hne : fields.length ≠ 0 := by
    intro h0
    rw [List.length_eq_zero] at h0
    subst h0
    simp [List.get?] at hf
  rw [List.get?_eq_getElem?] at hf
  simp only [EncodeEntry, if_neg hne, List.get?_eq_getElem?, List.getElem?_map,
    hf, Option.map_some']
  unfold filterField
  by_cases hs : IsSensitiveField flt (goToLower f.key) = true
  · simp [hs]
  · simp [hs, hcomplex, hnn]

/-- Witness for `claim_C1`: a non-sensitive, reflect-typed field is wrapped. -/
theorem claim_C1_witness :
    (EncodeEntry ⟨some (NewSensitiveDataFilter ["password"])⟩ "***"
        [⟨"data", .reflectType, "",
          .val (.obj (some (.econs "password" (.str "x") .enil)))⟩]).get? 0 =
      some (if IsSensitiveField (NewSensitiveDataFilter ["password"])
          (goToLower "data")
        then zapString "data" "***"
        else zapAnyWrapper "data"
          (.val (.obj (some (.econs "password" (.str "x") .enil))))
          (NewSensitiveDataFilter ["password"])) :=
  claim_C1 (NewSensitiveDataFilter ["password"]) "***"
    [⟨"data", .reflectType, "",
      .val (.obj (some (.econs "password" (.str "x") .enil)))⟩]
    0
    ⟨"data", .reflectType, "",
      .val (.obj (some (.econs "password" (.str "x") .enil)))⟩
    rfl (Or.inl rfl) rfl

/-- C10: a field of complex type whose interface payload is nil and whose
name is not sensitive fails the `field.Interface != nil` guard and is
forwarded to the underlying encoder completely unchanged. -/
theorem claim_C10 (flt : SensitiveDataFilter) (mask : String)
    (fields : List ZapField) (i : Nat) (f : ZapField)
    (hf : fields.get? i = some f)
    (hcomplex : f.type = .reflectType ∨ f.type = .objectMarshalerType)
    (hnil : f.interface.isNil = true)
    (hname : IsSensitiveField flt (goToLower f.key) = false) :
    (EncodeEntry ⟨some flt⟩ mask fields).get? i = some f := by
  have hne : fields.length ≠ 0 := by
    intro h0
    rw [List.length_eq_zero] at h0
    subst h0
    simp [List.get?] at hf
  rw [List.get?_eq_getElem?] at hf
  simp only [EncodeEntry, if_neg hne, List.get?_eq_getElem?, List.getElem?_map,
    hf, Option.map_some']
  unfold filterField
  simp [hname, hnil]

/-- Witness for `claim_C10`: a reflect-typed field with nil payload and
non-sensitive name passes through unchanged. -/
theorem claim_C10_witness :
    (EncodeEntry ⟨some (NewSensitiveDataFilter ["password"])⟩ "***"
        [⟨"data", .reflectType, "", .nilIface⟩]).get? 0 =
      some ⟨"data", .reflectType, "", .nilIface⟩ :=
  claim_C10 (NewSensitiveDataFilter ["password"]) "***"
    [⟨"data", .reflectType, "", .nilIface⟩] 0
    ⟨"data", .reflectType, "", .nilIface⟩
    rfl (Or.inl rfl) rfl rfl

/-- Specialization of `MarshalJSON` to a struct-typed wrapped value: the
struct is serialized, re-parsed as a (canonical) map, masked, and
re-serialized, all failures propagating. -/
theorem MarshalJSON_structV (flt : SensitiveDataFilter) (mask : String)
    (l : Entries) :
    MarshalJSON (some flt) mask (.structV l) =
      match jsonMarshalV (.structV l) with
      | .error e => .error ("failed to marshal data: " ++ e)
      | .ok _ =>
        match jsonMarshalV (.obj (some (maskEntries flt mask (canonEntries l)))) with
        | .ok r => .ok r
        | .error e => .error ("failed to marshal masked data: " ++ e) := rfl

/-- The canonicalization the deferred wrapper performs on its wrapped value
before masking: a map or a slice is masked as-is by `MarshalJSON`'s direct
branches, while every other value is first turned into its canonical
struct-free form by the marshal-then-unmarshal round trip of the default
branch. -/
def wrapperCanon : GoValue → GoValue
  | .obj m => .obj m
  | .arr a => .arr a
  | d => canonV d

/-- C2: the deferred wrapper emits exactly the Value Masker's output and
propagates failures: (i) the canonical form the wrapper masks denotes the
same JSON text as the wrapped value; (ii) any `Except.ok` result of
`MarshalJSON` carries precisely the bytes of the masked canonical form of
the wrapped value — never the unmasked original bytes wherever masking
changes anything (for a scalar the masked form is the scalar itself); and
(iii) whenever serialization of the masked form fails, `MarshalJSON`
returns a failure, never a success. -/
theorem claim_C2 (flt : SensitiveDataFilter) (mask : String) (data : GoValue) :
    jsonMarshalV (wrapperCanon data) = jsonMarshalV data ∧
    (∀ s : String, MarshalJSON (some flt) mask data = Except.ok s →
      jsonMarshalV (maskValue flt mask (wrapperCanon data)) = Except.ok s) ∧
    (∀ e : String,
      jsonMarshalV (maskValue flt mask (wrapperCanon data)) = Except.error e →
      ∃ e2 : String, MarshalJSON (some flt) mask data = Except.error e2) := by
  have hden : jsonMarshalV (wrapperCanon data) = jsonMarshalV data := by
    cases data with
    | obj m => rfl
    | arr a => rfl
    | str s0 => rfl
    | num n => rfl
    | structV l => exact jsonMarshalV_canonV (.structV l)
    | unserializable => rfl
  have hok : ∀ s : String, MarshalJSON (some flt) mask data = Except.ok s →
      jsonMarshalV (maskValue flt mask (wrapperCanon data)) = Except.ok s := by
    intro s h
    cases data with
    | obj m =>
      rw [show wrapperCanon (GoValue.obj m) = GoValue.obj m from rfl,
        maskValue_obj]
      exact h
    | arr a =>
      rw [show wrapperCanon (GoValue.arr a) = GoValue.arr a from rfl,
        maskValue_arr]
      exact h
    | str s0 =>
      simpa [MarshalJSON, jsonMarshalV, unmarshalAsMap, unmarshalAsArr,
        canonV, maskValue, wrapperCanon] using h
    | num n =>
      simpa [MarshalJSON, jsonMarshalV, unmarshalAsMap, unmarshalAsArr,
        canonV, maskValue, wrapperCanon] using h
    | unserializable =>
      simp [MarshalJSON, jsonMarshalV] at h
    | structV l =>
      rw [MarshalJSON_structV] at h
      split at h
      next e heq => simp at h
      next jsonData heq =>
        split at h
        next r heq2 =>
          simp only [Except.ok.injEq] at h
          subst h
          simpa [wrapperCanon, canonV, maskValue] using heq2
        next e heq2 => simp at h
  refine ⟨hden, hok, ?_⟩
  intro e he
  cases hres : MarshalJSON (some flt) mask data with
  | ok s =>
    have hcontra := hok s hres
    rw [he] at hcontra
    exact absurd hcontra (by simp)
  | error e2 => exact ⟨e2, rfl⟩

/-- Witness for `claim_C2`: on a struct-typed wrapped value carrying a
sensitive key, the bytes a successful `MarshalJSON` returns are the masked
canonical form's bytes, with the token in place of the secret. -/
theorem claim_C2_witness :
    jsonMarshalV
        (maskValue (NewSensitiveDataFilter ["password"]) "***"
          (wrapperCanon (.structV (.econs "password" (.str "x") .enil))))
      = Except.ok "\x7b\"password\":\"***\"\x7d" :=
  (claim_C2 (NewSensitiveDataFilter ["password"]) "***"
    (.structV (.econs "password" (.str "x") .enil))).2.1
    "\x7b\"password\":\"***\"\x7d" rfl
